import Mathlib

/-!
Verification of the sniff multi-signal AI-contribution detector.

Shallow embedding of the detection-and-aggregation engine of the `sniff`
repository (`sniff_cli`): the score aggregator (`detectors/scoring.py`),
the structural-regularity and SimHash near-duplicate analyzers
(`detectors/structural.py`), the author-baseline engine
(`detectors/baseline.py`), the velocity/burst detection of `main.py`, and
the diff extraction of `git_client.py`.

Conventions of the embedding:
* Python floats are modelled exactly: `ℚ` wherever the source computes only
  field operations, and `ℝ` where `statistics.stdev` (a square root) enters.
* A diff is the raw string; `.split('\n')` is `String.splitOn "\n"`,
  `.strip()` truthiness is `String.trim ≠ ""`, `len` is `String.length`.
* Python's per-process string hash is an arbitrary parameter
  `hashFn : String → ℕ`.
* Reason strings keep the source's constant prefixes; numeric interpolation
  inside f-strings (display only, inspected by no claim) is elided.
-/

namespace Sniff

/-- A detector result: `{"score": float, "reason": str}`. -/
structure DetRes where
  score : ℚ
  reason : String
  deriving DecidableEq, Repr

/-! ## Shared line utilities -/

/-- ASCII whitespace stripped by Python's `str.strip()`. -/
def pyWhitespaceChar (c : Char) : Bool :=
  c = ' ' ∨ c = '\t' ∨ c = '\n' ∨ c = '\r' ∨ c = '\x0b' ∨ c = '\x0c'

/-- The source's `s.split('\n')` on the character list: split at every newline, keeping
empty pieces (so the empty string yields one empty piece, as in Python). -/
def splitLinesChars : List Char → List (List Char)
  | [] => [[]]
  | c :: rest =>
      if c = '\n' then [] :: splitLinesChars rest
      else
        match splitLinesChars rest with
        | l :: ls => (c :: l) :: ls
        | [] => [[c]]

/-- The source's `diff.split('\n')`. -/
def splitLines (s : String) : List String :=
  (splitLinesChars s.data).map String.mk

/-- The source's `l.strip()` is truthy, i.e. the line has a non-whitespace character. -/
def isNonBlank (l : String) : Bool :=
  l.data.any (fun c => !(pyWhitespaceChar c))

/-- The source's `[l for l in diff.split('\n') if l.strip()]`. -/
def nonBlankLines (diff : String) : List String :=
  (splitLines diff).filter isNonBlank

/-- The source's `len([l for l in diff.split('\n') if l.strip()])`: non-blank line count. -/
def linesAdded (diff : String) : ℕ := (nonBlankLines diff).length

/-- The source's `not diff.strip()`: the whole diff strips to the empty string. -/
def isBlankDiff (diff : String) : Bool :=
  diff.data.all pyWhitespaceChar

/-! ## Statistics primitives (`statistics.mean`, `statistics.stdev`)

`_mean` in `baseline.py` guards the empty list to `0.0`; `_stdev` guards
lists shorter than 2 to `0.0`.  `statistics.stdev` is the sample standard
deviation (denominator `n - 1`); its square (the sample variance) is
rational, the deviation itself is its real square root. -/

/-- Mean of a rational list, `0` on the empty list (`_mean`). -/
def meanQ (l : List ℚ) : ℚ :=
  if l = [] then 0 else l.sum / l.length

/-- Sample variance (denominator `n - 1`), `0` below two elements. -/
def svarQ (l : List ℚ) : ℚ :=
  if l.length < 2 then 0
  else ((l.map (fun x => (x - meanQ l) ^ 2)).sum) / (l.length - 1)

/-- The source's `statistics.stdev`, `0` below two elements (`_stdev`). -/
noncomputable def stdevR (l : List ℚ) : ℝ := Real.sqrt (svarQ l)

/-! ## Score aggregator (`detectors/scoring.py`, `ScoreAggregator`) -/

/-- Python's `round` (banker's rounding, half to even) on an exact rational. -/
def pyRound (q : ℚ) : ℤ :=
  let f := ⌊q⌋
  let r := q - f
  if r < 1/2 then f
  else if 1/2 < r then f + 1
  else if 2 ∣ f then f else f + 1

/-- The source's `round(x, 2)`. -/
def round2 (q : ℚ) : ℚ := (pyRound (q * 100) : ℚ) / 100

/-- Result of `ScoreAggregator.compute` (`score` and `band`; the `reasons`
list, which no claim concerns, is not modelled). -/
structure AggRes where
  score : ℚ
  band : String
  deriving DecidableEq, Repr

/-- The fixed engine weights of `ScoreAggregator.__init__`. -/
def weights : String → ℚ
  | "text" => 0.10
  | "code" => 0.50
  | "structural" => 0.15
  | "similarity" => 0.15
  | "semantic" => 0.10
  | "baseline" => 0.15
  | _ => 0

/-- The source's `ScoreAggregator.compute`: weighted base over the six engines, velocity
and burst bonuses, single-strong-signal amplification, consensus bonus,
cap at `1.0`, `round(..., 2)`, and band classification. -/
def compute (text_res code_res : DetRes) (velocity_lpm : ℚ) (burst_score : ℚ)
    (structural_res similarity_res semantic_res baseline_res : DetRes) : AggRes :=
  let base : ℚ :=
    text_res.score * weights ("text") +
    code_res.score * weights ("code") +
    structural_res.score * weights ("structural") +
    similarity_res.score * weights ("similarity") +
    semantic_res.score * weights ("semantic") +
    baseline_res.score * weights ("baseline")
  let v_score : ℚ := if velocity_lpm > 50 then 1.0 else if velocity_lpm > 20 then 0.6 else 0.0
  let s1 : ℚ := base + v_score * 0.15
  let s2 : ℚ := if burst_score > 0 then s1 + 0.1 else s1
  let all_scores : List ℚ :=
    [text_res.score, code_res.score, structural_res.score,
     similarity_res.score, semantic_res.score, baseline_res.score]
  let s3 : ℚ := if all_scores.any (fun s => s ≥ 0.5) then s2 + 0.20 else s2
  let suspect_engines : ℕ := all_scores.countP (fun s => s ≥ 0.3)
  let s4 : ℚ :=
    if suspect_engines ≥ 2 then s3 + 0.25
    else if suspect_engines = 1 then s3 + 0.10 else s3
  let final_score : ℚ := min s4 1.0
  let band : String :=
    if final_score < 0.20 then "Likely Human"
    else if final_score < 0.50 then "Mixed / Uncertain"
    else "Likely AI-assisted"
  { score := round2 final_score, band := band }

/-- The source's `main.py` line 115: the band reported in the per-commit result is
recomputed from the (possibly LLM-overridden, rounded) final score:
`"Likely AI-assisted" if score > 0.50 else "Likely Human" if score < 0.20
else "Mixed / Uncertain"`. -/
def mainBand (score : ℚ) : String :=
  if score > 0.50 then "Likely AI-assisted"
  else if score < 0.20 then "Likely Human"
  else "Mixed / Uncertain"

/-! ## Velocity and burst detection (`main.py`, `_get_analysis_data`)

A commit is modelled by its hash, author name, commit time
(`committed_datetime`, in seconds on a common clock) and extracted diff.
`get_commits` returns commits newest first; the velocity loop walks
`reversed(commits)`, i.e. chronologically. -/

/-- A commit as seen by `_get_analysis_data`. -/
structure MCommit where
  hexsha : String
  author : String
  time : ℚ
  diff : String
  deriving DecidableEq, Repr

/-- One step of the velocity loop: given the `author_last_seen` map and the
current commit, the velocity assigned to that commit.  `minutes` is the
elapsed time since the author's previous commit divided by `60`; the code
is `lines_added / minutes if minutes > 0 else lines_added`, and `0.0` for
an author's first commit in the window. -/
def velocityStep (seen : String → Option ℚ) (c : MCommit) : ℚ :=
  match seen c.author with
  | none => 0.0
  | some t =>
      let minutes : ℚ := (c.time - t) / 60
      if minutes > 0 then (linesAdded c.diff : ℚ) / minutes else (linesAdded c.diff : ℚ)

/-- The velocity loop over a chronologically ordered commit list, producing
each commit's velocity in order while updating `author_last_seen`. -/
def velocities (seen : String → Option ℚ) : List MCommit → List ℚ
  | [] => []
  | c :: rest =>
      velocityStep seen c ::
        velocities (fun a => if a = c.author then some c.time else seen a) rest

/-- The `author_last_seen` map after processing a prefix of commits. -/
def seenAfter (seen : String → Option ℚ) (pre : List MCommit) : String → Option ℚ :=
  pre.foldl (fun s c => fun a => if a = c.author then some c.time else s a) seen

/-- A per-author burst entry `(timestamp, hexsha, lines_added)` collected in
`author_commit_times`. -/
structure BEntry where
  time : ℚ
  sha : String
  lines : ℕ
  deriving DecidableEq, Repr

/-- The 10-minute window anchored at `e`: all of the author's entries from
`e` on whose timestamp is within `600` seconds of `e`'s
(`[x for x in entries[i:] if (x.time - entries[i].time) <= 600]`). -/
def windowOf (e : BEntry) (rest : List BEntry) : List BEntry :=
  (e :: rest).filter (fun x => x.time - e.time ≤ 600)

/-- The burst condition on a window: at least `5` commits, at least `3` of
which individually changed more than `20` lines. -/
def windowQualifies (e : BEntry) (rest : List BEntry) : Bool :=
  5 ≤ (windowOf e rest).length ∧ 3 ≤ (windowOf e rest).countP (fun x => 20 < x.lines)

/-- The burst condition at start index `i` of an entry list. -/
def qualifiesAt (entries : List BEntry) (i : ℕ) : Bool :=
  match entries.drop i with
  | [] => false
  | e :: rest => windowQualifies e rest

/-- The burst loop of `_get_analysis_data` for one author's (sorted) entry
list: scan windows from each successive start; at the first window with at
least `5` commits and at least `3` large ones, flag every commit of that
window and stop (`break`). -/
def burstScan : List BEntry → List String
  | [] => []
  | e :: rest =>
      if windowQualifies e rest then (windowOf e rest).map (·.sha)
      else burstScan rest

/-- The time of the last commit by author `a` in a chronological commit
list: the author's immediately preceding commit when the list is the part
of the window processed so far. -/
def prevTimeOf : List MCommit → String → Option ℚ
  | [], _ => none
  | c :: pre, a =>
      match prevTimeOf pre a with
      | some t => some t
      | none => if c.author = a then some c.time else none

/-- One author's `author_commit_times` entries: collected in chronological
iteration order over `reversed(commits)`, then `sort`ed by timestamp. -/
def authorEntries (cs : List MCommit) (a : String) : List BEntry :=
  (((cs.reverse.filter (fun c => c.author = a)).map
      (fun c => ⟨c.time, c.hexsha, linesAdded c.diff⟩ : MCommit → BEntry)).mergeSort
    (fun x y => x.time ≤ y.time))

/-- The source's `commit.hexsha in burst_commits`: some author's burst scan flagged it. -/
def burstFlagged (cs : List MCommit) (sha : String) : Bool :=
  (cs.map (·.author)).any (fun a => (burstScan (authorEntries cs a)).contains sha)

/-- Concrete one-author entry list exhibiting two disjoint qualifying burst
windows: five >20-line commits in the first 10 minutes and five more an
hour later. -/
def burstCexEntries : List BEntry :=
  [⟨0, "s1", 25⟩, ⟨60, "s2", 25⟩, ⟨120, "s3", 25⟩, ⟨180, "s4", 25⟩, ⟨240, "s5", 25⟩,
   ⟨3600, "s6", 25⟩, ⟨3660, "s7", 25⟩, ⟨3720, "s8", 25⟩, ⟨3780, "s9", 25⟩, ⟨3840, "s10", 25⟩]

/-- The spec's burst scenario: five commits by one author within 8 minutes,
three of them over 20 lines, and a sixth commit 20 minutes later. -/
def burstScenarioEntries : List BEntry :=
  [⟨0, "w1", 25⟩, ⟨120, "w2", 25⟩, ⟨240, "w3", 25⟩, ⟨360, "w4", 5⟩, ⟨480, "w5", 5⟩,
   ⟨1680, "w6", 25⟩]

/-! ## SimHash near-duplicate engine (`detectors/structural.py`)

`_tokenize` strips `//`, `#` and `/* */` comments with three `re.sub`
passes and then extracts the identifier tokens matched by
`\b[a-zA-Z_][a-zA-Z0-9_]{1,}\b` — the maximal word-character runs that
start with a letter or underscore and have length at least 2 (ASCII model
of the word class).  Python's per-process string `hash` is an arbitrary
parameter `hashFn`. -/

/-- A character of the class `[a-zA-Z0-9_]`. -/
def isWordChar (c : Char) : Bool := c.isAlpha ∨ c.isDigit ∨ c = '_'

/-- A character of the class `[a-zA-Z_]`. -/
def isIdentStartChar (c : Char) : Bool := c.isAlpha ∨ c = '_'

/-- The source's `re.sub(r'//.*?\n', '\n', text)`: from each `//` the text up to and
including the next newline is replaced by that newline; a trailing `//`
comment with no newline after it is kept (the pattern needs the
newline).  `buf` holds the pending comment text in reverse. -/
def stripSlashComments : Option (List Char) → List Char → List Char
  | none, [] => []
  | none, '/' :: '/' :: rest => stripSlashComments (some ['/', '/']) rest
  | none, c :: rest => c :: stripSlashComments none rest
  | some buf, [] => buf.reverse
  | some _, '\n' :: rest => '\n' :: stripSlashComments none rest
  | some buf, c :: rest => stripSlashComments (some (c :: buf)) rest

/-- The source's `re.sub(r'#.*?\n', '\n', text)`, as for `//`. -/
def stripHashComments : Option (List Char) → List Char → List Char
  | none, [] => []
  | none, '#' :: rest => stripHashComments (some ['#']) rest
  | none, c :: rest => c :: stripHashComments none rest
  | some buf, [] => buf.reverse
  | some _, '\n' :: rest => '\n' :: stripHashComments none rest
  | some buf, c :: rest => stripHashComments (some (c :: buf)) rest

/-- The source's `re.sub(r'/\*.*?\*/', '', text, flags=re.DOTALL)`: each non-greedy
block comment disappears entirely; an unterminated `/*` is kept. -/
def stripBlockComments : Option (List Char) → List Char → List Char
  | none, [] => []
  | none, '/' :: '*' :: rest => stripBlockComments (some ['*', '/']) rest
  | none, c :: rest => c :: stripBlockComments none rest
  | some buf, [] => buf.reverse
  | some _, '*' :: '/' :: rest => stripBlockComments none rest
  | some buf, c :: rest => stripBlockComments (some (c :: buf)) rest

/-- Maximal runs of word characters (`cur` is the current run in
reverse). -/
def wordRunsAux (cur : List Char) : List Char → List (List Char)
  | [] => if cur = [] then [] else [cur.reverse]
  | c :: rest =>
      if isWordChar c then wordRunsAux (c :: cur) rest
      else if cur = [] then wordRunsAux [] rest
      else cur.reverse :: wordRunsAux [] rest

/-- All maximal word-character runs of a text. -/
def wordRuns (l : List Char) : List (List Char) := wordRunsAux [] l

/-- The source's `re.findall(r'\b[a-zA-Z_][a-zA-Z0-9_]{1,}\b', text)`. -/
def findIdentTokens (text : List Char) : List String :=
  ((wordRuns text).filter fun r =>
      decide (2 ≤ r.length) &&
        match r.head? with
        | some c => isIdentStartChar c
        | none => false).map String.mk

/-- The source's `_tokenize`: strip the three comment forms, then extract identifier
and keyword tokens of length at least 2. -/
def pyTokenize (diff : String) : List String :=
  findIdentTokens
    (stripBlockComments none (stripHashComments none (stripSlashComments none diff.data)))

/-- The per-bit vote of `_simhash`: over all tokens, `+1` when bit `i` of
`hash(token) % 2**64` is set, `-1` otherwise. -/
def simhashVote (hashFn : String → ℕ) (tokens : List String) (i : ℕ) : ℤ :=
  tokens.foldl (fun acc t => if (hashFn t % 2 ^ 64).testBit i then acc + 1 else acc - 1) 0

/-- The source's `_simhash`: `0` for an empty token list; otherwise the 64-bit
fingerprint whose bit `i` is set exactly when the vote for bit `i` is
positive. -/
def simhash (hashFn : String → ℕ) (tokens : List String) : ℕ :=
  if tokens = [] then 0
  else (List.range 64).foldl
    (fun fp i => if 0 < simhashVote hashFn tokens i then fp + 2 ^ i else fp) 0

/-- The source's `bin(x).count('1')`: number of set bits. -/
def popcount : ℕ → ℕ
  | 0 => 0
  | n + 1 => (n + 1) % 2 + popcount ((n + 1) / 2)

/-- The source's `_hamming_distance`: set bits of the XOR. -/
def hammingDistance (h1 h2 : ℕ) : ℕ := popcount (h1 ^^^ h2)

/-- The source's `_similarity`: `1 - dist/64`. -/
def similarity (h1 h2 : ℕ) : ℚ := 1 - (hammingDistance h1 h2 : ℚ) / 64

/-- The source's `SimHashIndex`: similarity threshold and the rolling list of
`(hexsha, author, simhash)` triples. -/
structure SimHashIndex where
  threshold : ℚ
  index : List (String × String × ℕ)
  deriving DecidableEq, Repr

/-- The source's `SimHashIndex.add`: diffs with fewer than 10 extracted tokens are not
indexed; otherwise the fingerprint is appended. -/
def SimHashIndex.add (hashFn : String → ℕ) (idx : SimHashIndex)
    (hexsha author diff : String) : SimHashIndex :=
  let tokens := pyTokenize diff
  if tokens.length < 10 then idx
  else { idx with index := idx.index ++ [(hexsha, author, simhash hashFn tokens)] }

/-- The source's `SimHashIndex.find_duplicates`: no comparison below 10 tokens;
otherwise every previously indexed entry with a different hash id and
similarity at least the threshold, as `(sha[:7], author, similarity)`,
sorted by descending similarity (stable, as Python's `sorted`). -/
def SimHashIndex.find_duplicates (hashFn : String → ℕ) (idx : SimHashIndex)
    (hexsha author diff : String) : List (String × String × ℚ) :=
  let tokens := pyTokenize diff
  if tokens.length < 10 then []
  else
    let h := simhash hashFn tokens
    let found := (idx.index.filter fun e =>
        e.1 ≠ hexsha ∧ similarity h e.2.2 ≥ idx.threshold).map
      (fun e => (String.mk (e.1.data.take 7), e.2.1, similarity h e.2.2))
    found.mergeSort (fun a b => b.2.2 ≤ a.2.2)

/-- The source's `SimHashIndex.analyze`: score the best match (`0.8 / 0.5 / 0.25` at
similarity `0.92 / 0.85 / 0.80`, `+0.2` capped at `1` for a cross-author
match at `≥ 0.85`), then insert the diff into the index; the result is
the detector result together with the updated index. -/
def SimHashIndex.analyze (hashFn : String → ℕ) (idx : SimHashIndex)
    (hexsha author diff : String) : DetRes × SimHashIndex :=
  let found := idx.find_duplicates hashFn hexsha author diff
  match found with
  | [] => (⟨0.0, "No near-duplicate commits found"⟩, idx.add hashFn hexsha author diff)
  | top :: _ =>
      let sim := top.2.2
      let other_author := top.2.1
      let score : ℚ :=
        if sim ≥ 0.92 then 0.8 else if sim ≥ 0.85 then 0.5
        else if sim ≥ 0.80 then 0.25 else 0.0
      let reason : String :=
        if sim ≥ 0.92 then "Near-identical code — strong AI copy-paste signal"
        else if sim ≥ 0.85 then "High code similarity — possible AI template reuse"
        else if sim ≥ 0.80 then "Moderate code similarity"
        else "No strong similarity signals"
      let crossAuthor : Bool := other_author ≠ author ∧ sim ≥ 0.85
      let score2 : ℚ := if crossAuthor then min (score + 0.2) 1.0 else score
      let reason2 : String := if crossAuthor then reason ++ " [cross-author]" else reason
      (⟨min score2 1.0, reason2⟩, idx.add hashFn hexsha author diff)

/-! ## Structural regularity analyzer (`detectors/structural.py`) -/

/-- Mean of a real list, `0` on the empty list (`_mean` on float inputs). -/
noncomputable def meanR (l : List ℝ) : ℝ :=
  if l = [] then 0 else l.sum / l.length

/-- The non-blank line lengths of a diff, as rationals. -/
def lineLengths (diff : String) : List ℚ :=
  (nonBlankLines diff).map (fun l => (l.length : ℚ))

/-- The source's `_line_stats`: `(mean, stdev, cv)` of the non-blank line lengths,
`(0, 0, 0)` below 5 lines, `cv = stdev / mean` guarded by `mean > 0`. -/
noncomputable def lineStats (diff : String) : ℚ × ℝ × ℝ :=
  let lines := lineLengths diff
  if lines.length < 5 then (0, 0, 0)
  else
    let mean := meanQ lines
    let stdev := stdevR lines
    let cv : ℝ := if mean > 0 then stdev / (mean : ℝ) else 0
    (mean, stdev, cv)

/-- Runs of consecutive blank lines, each appended when a non-blank line
follows (a trailing blank run is discarded, as in the source loop). -/
def blankGapsAux : List String → ℕ → List ℕ
  | [], _ => []
  | l :: rest, gap =>
      if isNonBlank l then
        (if gap > 0 then [gap] else []) ++ blankGapsAux rest 0
      else blankGapsAux rest (gap + 1)

/-- The blank-line gap run-lengths of a diff. -/
def blankGaps (diff : String) : List ℕ := (blankGapsAux (splitLines diff) 0)

open Classical in
/-- The source's `analyze_structural_regularity`: zero below 8 non-blank lines, else
`+0.5` for `cv < 0.25` over more than 15 lines (`+0.25` for `cv < 0.35`
over more than 20), `+0.2` for a narrow inter-decile range over more than
20 lines, `+0.15` for at least 3 blank-line gaps with gap-CV `< 0.3`,
capped at `1`. -/
noncomputable def analyze_structural_regularity (diff : String) : DetRes :=
  let lines := nonBlankLines diff
  if lines.length < 8 then ⟨0.0, "Diff too small for structural analysis"⟩
  else
    let st := lineStats diff
    let mean := st.1
    let cv := st.2.2
    let lengths := lineLengths diff
    let sortedLengths := lengths.mergeSort (fun a b => a ≤ b)
    let p10 := sortedLengths.getD (lengths.length / 10) 0
    let p90 := sortedLengths.getD (lengths.length * 9 / 10) 0
    let range_ratio : ℚ := (p90 - p10) / (mean + 1)
    let gaps := blankGaps diff
    let gapCond : Prop :=
      3 ≤ gaps.length ∧
        stdevR (gaps.map (fun g => (g : ℚ))) /
            ((meanQ (gaps.map (fun g => (g : ℚ))) : ℝ) + 0.001) < 0.3
    -- the sequence of `score +=` steps, written as the sum of the bonuses
    let score : ℚ :=
      (if cv < 0.25 ∧ lines.length > 15 then 0.5
       else if cv < 0.35 ∧ lines.length > 20 then 0.25
       else 0) +
      (if range_ratio < 0.5 ∧ lines.length > 20 then 0.2 else 0) +
      (if gapCond then 0.15 else 0)
    let reasons : List String :=
      (if cv < 0.25 ∧ lines.length > 15 then
        ["Abnormally uniform line lengths — AI-generated code signature"]
       else if cv < 0.35 ∧ lines.length > 20 then
        ["Suspicious line length regularity"]
       else []) ++
      (if range_ratio < 0.5 ∧ lines.length > 20 then
        ["Narrow line length range — uniform AI formatting"]
       else []) ++
      (if gapCond then
        ["Perfectly regular blank-line spacing (AI formatting pattern)"]
       else [])
    ⟨min score 1.0,
      if reasons = [] then "Organic structural variation"
      else String.intercalate ("; ") reasons⟩

/-! ## Author baseline engine (`detectors/baseline.py`) -/

/-- Python's `str.strip()` (ASCII whitespace model). -/
def pyStrip (l : List Char) : List Char :=
  ((l.dropWhile pyWhitespaceChar).reverse.dropWhile pyWhitespaceChar).reverse

/-- The source's `l.startswith(('#', '//', '/*', '*', '<!--'))` on a stripped line. -/
def startsWithCommentMark (l : List Char) : Bool :=
  ['#'].isPrefixOf l || ['/', '/'].isPrefixOf l || ['/', '*'].isPrefixOf l ||
    ['*'].isPrefixOf l || ['<', '!', '-', '-'].isPrefixOf l

/-- The source's `_comment_ratio`: fraction of stripped non-blank lines that start with
a comment marker, `0` for no lines. -/
def commentRatio (diff : String) : ℚ :=
  let lines := ((splitLines diff).filter isNonBlank).map (fun l => pyStrip l.data)
  if lines = [] then 0
  else (lines.countP startsWithCommentMark : ℚ) / lines.length

/-- The source's `_avg_line_length`: mean length of the non-blank lines, `0` if none. -/
def avgLineLength (diff : String) : ℚ :=
  if nonBlankLines diff = [] then 0 else meanQ (lineLengths diff)

/-- The source's `_line_length_variance`: despite its name the source returns the
sample standard deviation of the non-blank line lengths (`0` if none). -/
noncomputable def lineLengthVariance (diff : String) : ℝ :=
  if nonBlankLines diff = [] then 0 else stdevR (lineLengths diff)

/-- Identifiers matched by `\b([a-zA-Z_][a-zA-Z0-9_]{2,})\b`: maximal word
runs of length at least 3 starting with a letter or underscore. -/
def namingIdentifiers (diff : String) : List (List Char) :=
  (wordRuns diff.data).filter fun r =>
    decide (3 ≤ r.length) &&
      match r.head? with
      | some c => isIdentStartChar c
      | none => false

/-- Python `str.islower()`: at least one cased character and no uppercase
cased character (ASCII model). -/
def pyIsLower (s : List Char) : Bool :=
  s.any (·.isAlpha) && s.all (fun c => !c.isAlpha || c.isLower)

/-- The source's `re.search(r'[a-z][A-Z]', i)`: some adjacent lowercase-uppercase pair. -/
def hasCamelPair : List Char → Bool
  | a :: b :: rest => (a.isLower && b.isUpper) || hasCamelPair (b :: rest)
  | _ => false

/-- The source's `_detect_naming_style`: `snake_case` when snake-styled identifiers
outnumber camel ones by over 1.5×, `camelCase` for the converse, else
`mixed`. -/
def detectNamingStyle (diff : String) : String :=
  let identifiers := namingIdentifiers diff
  let snake := identifiers.countP (fun i => i.contains '_' && pyIsLower i)
  let camel := identifiers.countP hasCamelPair
  if (snake : ℚ) > (camel : ℚ) * 1.5 then "snake_case"
  else if (camel : ℚ) > (snake : ℚ) * 1.5 then "camelCase"
  else "mixed"

/-- The source's `const \w+ = \(`: the `const ` prefix, a nonempty word run, then
` = (`. -/
def constFnHead (s : List Char) : Bool :=
  (['c', 'o', 'n', 's', 't', ' '].isPrefixOf s) &&
    (let rest := s.drop 6
     let w := rest.takeWhile isWordChar
     !w.isEmpty && [' ', '=', ' ', '('].isPrefixOf (rest.drop w.length))

/-- The source's `re.match(r'^(def |function |async function |const \w+ = \(|class )', stripped)`. -/
def isFnHeadLine (s : List Char) : Bool :=
  ['d', 'e', 'f', ' '].isPrefixOf s ||
    ['f', 'u', 'n', 'c', 't', 'i', 'o', 'n', ' '].isPrefixOf s ||
    ['a', 's', 'y', 'n', 'c', ' ', 'f', 'u', 'n', 'c', 't', 'i', 'o', 'n', ' '].isPrefixOf s ||
    constFnHead s ||
    ['c', 'l', 'a', 's', 's', ' '].isPrefixOf s

/-- The loop of `_extract_function_lengths`: `inFn` says a function is
open, `cur` counts its lines; a new head line closes the previous
function. -/
def fnLengthsAux : List String → Bool → ℕ → List ℕ
  | [], inFn, cur => if inFn && cur > 0 then [cur] else []
  | l :: rest, inFn, cur =>
      if isFnHeadLine (pyStrip l.data) then
        (if inFn && cur > 0 then [cur] else []) ++ fnLengthsAux rest true 1
      else if inFn then fnLengthsAux rest true (cur + 1)
      else fnLengthsAux rest false cur

/-- The source's `_extract_function_lengths`: indentation-heuristic function sizes. -/
def extractFunctionLengths (diff : String) : List ℕ :=
  fnLengthsAux (splitLines diff) false 0

/-- The per-commit data collected by `build_profiles` into
`author_data`. -/
structure DiffEntry where
  lines : ℕ
  comment_ratio : ℚ
  avg_line_length : ℚ
  line_length_variance : ℝ
  fn_lengths : List ℕ
  naming_style : String

/-- The `author_data` record of one non-blank diff. -/
noncomputable def mkEntry (diff : String) : DiffEntry :=
  { lines := (nonBlankLines diff).length
    comment_ratio := commentRatio diff
    avg_line_length := avgLineLength diff
    line_length_variance := lineLengthVariance diff
    fn_lengths := extractFunctionLengths diff
    naming_style := detectNamingStyle diff }

/-- The per-author style profile of `build_profiles`. -/
structure AuthorProfile where
  avg_commit_size : ℚ
  commit_size_stdev : ℝ
  avg_comment_ratio : ℚ
  avg_line_length : ℚ
  avg_line_variance : ℝ
  avg_fn_length : ℚ
  dominant_naming : String
  total_baseline_commits : ℕ

/-- The source's `Counter(l).most_common(1)[0][0]` with `'mixed'` for the empty list:
the maximal-count element, earliest first occurrence breaking ties. -/
def dominantNaming (l : List String) : String :=
  match l with
  | [] => "mixed"
  | x :: _ =>
      l.foldl (fun best s =>
        if l.countP (· = s) > l.countP (· = best) then s else best) x

/-- The profile built from one author's entries (oldest first): aggregates
over the oldest `max 1 (n / 2)` entries (`entries[:max(1, len // 2)]`). -/
noncomputable def mkProfile (entries : List DiffEntry) : AuthorProfile :=
  let baseline := entries.take (max 1 (entries.length / 2))
  let commit_sizes := baseline.map (fun e => (e.lines : ℚ))
  { avg_commit_size := meanQ commit_sizes
    commit_size_stdev := stdevR commit_sizes
    avg_comment_ratio := meanQ (baseline.map (·.comment_ratio))
    avg_line_length := meanQ (baseline.map (·.avg_line_length))
    avg_line_variance := meanR (baseline.map (·.line_length_variance))
    avg_fn_length :=
      meanQ ((baseline.foldl (fun acc e => acc ++ e.fn_lengths) ([] : List ℕ)).map
        (fun n => (n : ℚ)))
    dominant_naming := dominantNaming (baseline.map (·.naming_style))
    total_baseline_commits := baseline.length }

/-- One author's non-blank diffs, oldest first, from the history sample
(`build_profiles` walks `reversed(commits)` and skips blank diffs). -/
def authorDiffs (cs : List MCommit) (a : String) : List String :=
  (cs.reverse.filter fun c => c.author = a && !isBlankDiff c.diff).map (·.diff)

/-- The source's `self.profiles` after `build_profiles`: an author has a profile
exactly when at least one non-blank diff was sampled. -/
noncomputable def profileOf (cs : List MCommit) (a : String) : Option AuthorProfile :=
  if authorDiffs cs a = [] then none
  else some (mkProfile ((authorDiffs cs a).map mkEntry))

/-- The commits whose entries form the baseline half used by
`build_profiles` for author `a`. -/
def baselineSrcCommits (cs : List MCommit) (a : String) : List MCommit :=
  let hist := cs.reverse.filter fun c => c.author = a && !isBlankDiff c.diff
  hist.take (max 1 (hist.length / 2))

open Classical in
/-- The source's `AuthorBaseline.analyze_deviation`: zero without a profile or for a
blank diff (`"No baseline available"`) or below 5 baseline commits
(`"Insufficient baseline history"`); else the sum of the five deviation
signals, capped at `1`. -/
noncomputable def analyze_deviation (profiles : String → Option AuthorProfile)
    (author diff : String) : DetRes :=
  match profiles author with
  | none => ⟨0.0, "No baseline available"⟩
  | some profile =>
      if isBlankDiff diff then ⟨0.0, "No baseline available"⟩
      else if profile.total_baseline_commits < 5 then
        ⟨0.0, "Insufficient baseline history"⟩
      else
        let commit_size := (nonBlankLines diff).length
        let comment_ratio := commentRatio diff
        let line_variance := lineLengthVariance diff
        let naming := detectNamingStyle diff
        let fn_lengths := extractFunctionLengths diff
        let avg_fn : ℚ :=
          if fn_lengths ≠ [] then meanQ (fn_lengths.map (fun n => (n : ℚ))) else 0.0
        let baseline_size := profile.avg_commit_size
        let baseline_stdev := profile.commit_size_stdev
        let z_score : ℝ :=
          |(commit_size : ℝ) - (baseline_size : ℝ)| / (baseline_stdev + 1)
        let sizeCond : Prop := baseline_size > 0 ∧ (0 : ℝ) < baseline_stdev
        let cr_diff := comment_ratio - profile.avg_comment_ratio
        let crCond : Prop := cr_diff > 0.10 ∧ commit_size > 15
        let varCond : Prop :=
          profile.avg_line_variance > 4 ∧
            line_variance < profile.avg_line_variance * 0.5 ∧ commit_size > 20
        let namCond : Prop :=
          naming ≠ profile.dominant_naming ∧ naming ≠ "mixed" ∧ commit_size > 15
        let fnCond : Prop :=
          profile.avg_fn_length > 0 ∧ avg_fn > 0 ∧ avg_fn / profile.avg_fn_length > 1.8
        -- the sequence of `score +=` steps, written as the sum of the bonuses
        let score : ℚ :=
          (if sizeCond then
            (if z_score > 2.0 then 0.4 else if z_score > 1.2 then 0.2 else 0)
           else 0) +
          (if crCond then 0.25 else 0) +
          (if varCond then 0.3 else 0) +
          (if namCond then 0.2 else 0) +
          (if fnCond then 0.25 else 0)
        let reasons : List String :=
          (if sizeCond then
            (if z_score > 2.0 then ["Commit size extreme outlier"]
             else if z_score > 1.2 then ["Unusual commit size"] else [])
           else []) ++
          (if crCond then ["Comment density spike"] else []) ++
          (if varCond then ["Abnormally regular line lengths"] else []) ++
          (if namCond then ["Naming style shift"] else []) ++
          (if fnCond then ["Functions longer than author historical average"]
           else [])
        ⟨min score 1.0,
          if reasons = [] then "Style consistent with author baseline"
          else String.intercalate ("; ") reasons⟩

/-! ## Scan windows of `_get_analysis_data` and `git_client.py` -/

/-- The source's `get_commits(repo, count)`: the newest `count` commits. -/
def scannedCommits (repo : List MCommit) (count : ℕ) : List MCommit := repo.take count

/-- The source's `get_commits(repo, max(count * 3, 60))`: the extended history sample
used for baseline construction. -/
def historyCommits (repo : List MCommit) (count : ℕ) : List MCommit :=
  repo.take (max (3 * count) 60)

/-- A commit as seen by `get_commit_diff`: its parent list and the decoded
patch text of each file diff (`none` for binary/undecodable patches, which
are skipped). -/
structure GitCommit where
  parents : List String
  patches : List (Option String)

/-- The added-line extraction loop of `get_commit_diff`: lines starting
with `+` but not `+++`, with the leading `+` removed. -/
def addedLinesOf (patches : List (Option String)) : List String :=
  patches.foldl (fun acc p =>
    match p with
    | none => acc
    | some t =>
        acc ++ (((splitLines t).filter fun l =>
            ['+'].isPrefixOf l.data && !(['+', '+', '+'].isPrefixOf l.data)).map
          (fun l => String.mk (l.data.drop 1)))) []

/-- The source's `get_commit_diff`: the empty string for a parentless commit, else the
added lines joined by newlines. -/
def get_commit_diff (c : GitCommit) : String :=
  if c.parents = [] then ""
  else String.intercalate ("\n") (addedLinesOf c.patches)

/-! ## Concrete scenarios for the author-baseline engine -/

/-- A diff of `n` identical short lines. -/
def repLines (n : ℕ) : String :=
  String.intercalate ("\n") (List.replicate n ("aa"))

/-- A synthetic author history of 10 commits of identical style and size
(3 non-blank lines each). -/
noncomputable def identProfile : AuthorProfile :=
  mkProfile ((List.replicate 10 (repLines 3)).map mkEntry)

/-- A synthetic author history of 10 same-style commits whose oldest five
(the baseline half) have sizes `1, 1, 5, 9, 9` — mean `5`, sample
variance `16`, standard deviation `4 > 0`. -/
noncomputable def variedProfile : AuthorProfile :=
  mkProfile
    (([repLines 1, repLines 1, repLines 5, repLines 9, repLines 9,
       repLines 1, repLines 1, repLines 1, repLines 1, repLines 1]).map mkEntry)

/-- Sixteen uniform code lines. -/
def dPlainC4 : String := String.intercalate ("\n") (List.replicate 16 ("aaaa"))

/-- Sixteen uniform comment lines. -/
def dNoteC4 : String := String.intercalate ("\n") (List.replicate 16 ("# aa"))

/-- A short filler diff. -/
def dTailC4 : String := "bb"

/-- A 10-commit repository (newest first) by one author whose entire
history fits inside the scan window: the oldest five commits form the
baseline, and the fifth-oldest (`c5`, all comment lines) deviates from
the baseline's average comment ratio. -/
def repoC4 : List MCommit :=
  [⟨"c10", "A", 10, dTailC4⟩, ⟨"c9", "A", 9, dTailC4⟩, ⟨"c8", "A", 8, dTailC4⟩,
   ⟨"c7", "A", 7, dTailC4⟩, ⟨"c6", "A", 6, dTailC4⟩, ⟨"c5", "A", 5, dNoteC4⟩,
   ⟨"c4", "A", 4, dPlainC4⟩, ⟨"c3", "A", 3, dPlainC4⟩, ⟨"c2", "A", 2, dPlainC4⟩,
   ⟨"c1", "A", 1, dPlainC4⟩]

end Sniff

namespace Sniff

/-- C1: code sub-score `1.0`, every other sub-score `0`, velocity `0`,
burst flag off: `ScoreAggregator.compute` returns final score exactly
`0.80` (base `0.50`, amplification `+0.20`, single-engine consensus
`+0.10`) and band `"Likely AI-assisted"`. -/
theorem compute_code_only :
    compute ⟨0, ""⟩ ⟨1, ""⟩ 0 0 ⟨0, ""⟩ ⟨0, ""⟩ ⟨0, ""⟩ ⟨0, ""⟩ =
      { score := 0.80, band := "Likely AI-assisted" } := by
  norm_num [compute, weights, round2, pyRound, List.countP, List.countP.go, List.any]

/-- C3 counterexample: at a reported final score of exactly `0.50` the
band recomputed by `main.py` line 115 (the one stored in the per-commit
result) is `"Mixed / Uncertain"`, not `"Likely AI-assisted"` as the claim
states for scores `≥ 0.50`. -/
theorem mainBand_at_half_cex :
    mainBand 0.50 = "Mixed / Uncertain" ∧ mainBand 0.50 ≠ "Likely AI-assisted" := by
  refine ⟨by norm_num [mainBand], ?_⟩
  norm_num [mainBand]
  decide

/-- C3 amended: the reported band is a function of the reported final
score with thresholds `score < 0.20 ⇒ "Likely Human"`,
`0.20 ≤ score ≤ 0.50 ⇒ "Mixed / Uncertain"` (the string has spaces around
the slash), and strictly `score > 0.50 ⇒ "Likely AI-assisted"`. -/
theorem mainBand_thresholds (s : ℚ) :
    (s < 0.20 → mainBand s = "Likely Human") ∧
    (0.20 ≤ s → s ≤ 0.50 → mainBand s = "Mixed / Uncertain") ∧
    (0.50 < s → mainBand s = "Likely AI-assisted") := by
  unfold mainBand
  refine ⟨fun h1 => ?_, fun h2 h3 => ?_, fun h4 => ?_⟩ <;> split_ifs with ha hb <;>
    first | rfl | linarith

/-- Witness for `mainBand_thresholds` at scores `0.1`, `0.50` and `0.9`. -/
theorem mainBand_thresholds_witness :
    mainBand 0.1 = "Likely Human" ∧ mainBand 0.50 = "Mixed / Uncertain" ∧
      mainBand 0.9 = "Likely AI-assisted" :=
  ⟨(mainBand_thresholds 0.1).1 (by norm_num),
   (mainBand_thresholds 0.50).2.1 (by norm_num) (by norm_num),
   (mainBand_thresholds 0.9).2.2 (by norm_num)⟩

/-! ### Velocity (C6) -/

theorem length_velocities (seen : String → Option ℚ) (l : List MCommit) :
    (velocities seen l).length = l.length := by
  induction l generalizing seen with
  | nil => rfl
  | cons c rest ih => simp [velocities, ih]

theorem velocities_append (seen : String → Option ℚ) (l₁ l₂ : List MCommit) :
    velocities seen (l₁ ++ l₂) =
      velocities seen l₁ ++ velocities (seenAfter seen l₁) l₂ := by
  induction l₁ generalizing seen with
  | nil => rfl
  | cons c rest ih =>
      simp only [List.cons_append, velocities, List.cons.injEq, true_and]
      exact ih _

theorem seenAfter_prevTime (seen : String → Option ℚ) (pre : List MCommit) (a : String) :
    seenAfter seen pre a =
      match prevTimeOf pre a with
      | none => seen a
      | some t => some t := by
  induction pre generalizing seen with
  | nil => rfl
  | cons c pre ih =>
      show seenAfter (fun x => if x = c.author then some c.time else seen x) pre a = _
      rw [ih]
      cases h : prevTimeOf pre a with
      | some t => simp [prevTimeOf, h]
      | none =>
          simp only [prevTimeOf, h]
          by_cases hac : a = c.author
          · simp [hac]
          · rw [if_neg hac, if_neg fun hh : c.author = a => hac hh.symm]

/-- C6 amended: the velocity of a commit `c` in the chronological window
`pre ++ c :: post` is `0` when no earlier commit of the same author
exists, `lines / minutes` when the elapsed minutes since the author's
immediately preceding commit are positive, and — diverging from the claim,
which demands `0` — the raw `lines_added` count when the elapsed time is
zero (or negative); no case raises. -/
theorem velocity_amended (pre : List MCommit) (c : MCommit) (post : List MCommit) :
    (velocities (fun _ => none) (pre ++ c :: post)).getD pre.length 0 =
      match prevTimeOf pre c.author with
      | none => 0
      | some t =>
          if (c.time - t) / 60 > 0 then (linesAdded c.diff : ℚ) / ((c.time - t) / 60)
          else (linesAdded c.diff : ℚ) := by
  have hlen := length_velocities (fun _ => none) pre
  rw [velocities_append, List.getD_append_right _ _ _ _ (le_of_eq hlen), hlen,
    Nat.sub_self]
  show velocityStep (seenAfter (fun _ => none) pre) c = _
  unfold velocityStep
  rw [seenAfter_prevTime]
  cases prevTimeOf pre c.author with
  | none => norm_num
  | some t => rfl

/-- C6 counterexample: two commits by the same author at the same
timestamp (elapsed time zero).  The second commit's diff has `5` non-blank
lines and its computed velocity is `5`, not `0` as the claim requires for
the division-by-zero case. -/
theorem velocity_zero_elapsed_cex :
    (velocities (fun _ => none)
        [⟨"h1", "A", 0, "x"⟩, ⟨"h2", "A", 0, "x\ny\nz\nw\nv"⟩]).getD 1 0 = 5 ∧
      (5 : ℚ) ≠ 0 := by
  have h5 : linesAdded ("x\ny\nz\nw\nv") = 5 := rfl
  have hv : velocities (fun _ => none)
      [⟨"h1", "A", 0, "x"⟩, ⟨"h2", "A", 0, "x\ny\nz\nw\nv"⟩] = [0, 5] := by
    simp only [velocities, velocityStep]
    norm_num [h5]
  rw [hv]
  norm_num [List.getD]

/-! ### Burst windows (C5) -/

theorem burstScan_skip (pre post : List BEntry)
    (h : ∀ j, j < pre.length → qualifiesAt (pre ++ post) j = false) :
    burstScan (pre ++ post) = burstScan post := by
  induction pre with
  | nil => rfl
  | cons e pre ih =>
      have h0 : windowQualifies e (pre ++ post) = false := by
        simpa [qualifiesAt] using h 0 (by simp)
      show burstScan (e :: (pre ++ post)) = burstScan post
      rw [burstScan, if_neg (by simp [h0])]
      exact ih fun j hj => by
        simpa [qualifiesAt] using h (j + 1) (by simpa using Nat.succ_lt_succ hj)

/-- C5 amended: the burst scan flags exactly the commits of the FIRST
qualifying 10-minute window (≥5 commits, ≥3 of them over 20 lines): if no
window starting before index `i` qualifies and the window at `i` does,
the flagged set is precisely that window's hashes — so every commit in
that window is flagged, and any commit outside it (in particular one 20
minutes after the window start) is not.  Windows after the first
qualifying one are never examined (`break`). -/
theorem burst_first_window (entries : List BEntry) (i : ℕ) (e : BEntry) (rest : List BEntry)
    (hdrop : entries.drop i = e :: rest)
    (hq : windowQualifies e rest = true)
    (hmin : ∀ j, j < i → qualifiesAt entries j = false) :
    burstScan entries = (windowOf e rest).map (·.sha) := by
  have hi : i ≤ entries.length := by
    by_contra hc
    push_neg at hc
    rw [List.drop_eq_nil_of_le (le_of_lt hc)] at hdrop
    exact List.noConfusion hdrop
  have hsplit : entries = entries.take i ++ (e :: rest) := by
    rw [← hdrop, List.take_append_drop]
  have htake : (entries.take i).length = i := by
    rw [List.length_take]
    omega
  rw [hsplit, burstScan_skip]
  · rw [burstScan, if_pos hq]
  · intro j hj
    rw [htake] at hj
    rw [← hsplit]
    exact hmin j hj

/-- Witness for `burst_first_window` on the spec's scenario: five commits
within 8 minutes, three over 20 lines, all five flagged; the sixth commit
20 minutes later is not flagged. -/
theorem burst_first_window_witness :
    burstScan burstScenarioEntries = ["w1", "w2", "w3", "w4", "w5"] ∧
      "w6" ∉ burstScan burstScenarioEntries := by
  have hwin : windowOf ⟨0, "w1", 25⟩
      [⟨120, "w2", 25⟩, ⟨240, "w3", 25⟩, ⟨360, "w4", 5⟩, ⟨480, "w5", 5⟩,
       ⟨1680, "w6", 25⟩] =
      [⟨0, "w1", 25⟩, ⟨120, "w2", 25⟩, ⟨240, "w3", 25⟩, ⟨360, "w4", 5⟩,
       ⟨480, "w5", 5⟩] := by
    norm_num [windowOf, List.filter_cons, decide_eq_true_eq]
  have hq : windowQualifies ⟨0, "w1", 25⟩
      [⟨120, "w2", 25⟩, ⟨240, "w3", 25⟩, ⟨360, "w4", 5⟩, ⟨480, "w5", 5⟩,
       ⟨1680, "w6", 25⟩] = true := by
    rw [windowQualifies, hwin]
    rfl
  have h := burst_first_window burstScenarioEntries 0 ⟨0, "w1", 25⟩
    [⟨120, "w2", 25⟩, ⟨240, "w3", 25⟩, ⟨360, "w4", 5⟩, ⟨480, "w5", 5⟩, ⟨1680, "w6", 25⟩]
    rfl hq (fun j hj => absurd hj (Nat.not_lt_zero j))
  exact ⟨h.trans (by rw [hwin]; rfl), by rw [h, hwin]; decide⟩

/-- C5 counterexample: in `burstCexEntries` the window starting at index
`5` (entry `"s6"`) also qualifies (5 commits within 10 minutes, all over
20 lines), yet `"s6"` is not flagged: the scan `break`s after flagging the
first qualifying window, so commits of later qualifying windows are never
marked, contradicting "every commit lying in any such window is
flagged". -/
theorem burst_second_window_cex :
    qualifiesAt burstCexEntries 5 = true ∧
      "s6" ∈ ((windowOf ⟨3600, "s6", 25⟩
          [⟨3660, "s7", 25⟩, ⟨3720, "s8", 25⟩, ⟨3780, "s9", 25⟩,
           ⟨3840, "s10", 25⟩]).map (·.sha)) ∧
      "s6" ∉ burstScan burstCexEntries := by
  have hwin2 : windowOf ⟨3600, "s6", 25⟩
      [⟨3660, "s7", 25⟩, ⟨3720, "s8", 25⟩, ⟨3780, "s9", 25⟩, ⟨3840, "s10", 25⟩] =
      [⟨3600, "s6", 25⟩, ⟨3660, "s7", 25⟩, ⟨3720, "s8", 25⟩, ⟨3780, "s9", 25⟩,
       ⟨3840, "s10", 25⟩] := by
    norm_num [windowOf, List.filter_cons, decide_eq_true_eq]
  have hwin0 : windowOf ⟨0, "s1", 25⟩
      [⟨60, "s2", 25⟩, ⟨120, "s3", 25⟩, ⟨180, "s4", 25⟩, ⟨240, "s5", 25⟩,
       ⟨3600, "s6", 25⟩, ⟨3660, "s7", 25⟩, ⟨3720, "s8", 25⟩, ⟨3780, "s9", 25⟩,
       ⟨3840, "s10", 25⟩] =
      [⟨0, "s1", 25⟩, ⟨60, "s2", 25⟩, ⟨120, "s3", 25⟩, ⟨180, "s4", 25⟩,
       ⟨240, "s5", 25⟩] := by
    norm_num [windowOf, List.filter_cons, decide_eq_true_eq]
  have hq0 : windowQualifies ⟨0, "s1", 25⟩
      [⟨60, "s2", 25⟩, ⟨120, "s3", 25⟩, ⟨180, "s4", 25⟩, ⟨240, "s5", 25⟩,
       ⟨3600, "s6", 25⟩, ⟨3660, "s7", 25⟩, ⟨3720, "s8", 25⟩, ⟨3780, "s9", 25⟩,
       ⟨3840, "s10", 25⟩] = true := by
    rw [windowQualifies, hwin0]
    rfl
  refine ⟨?_, ?_, ?_⟩
  · have hdrop : burstCexEntries.drop 5 =
        ⟨3600, "s6", 25⟩ ::
          [⟨3660, "s7", 25⟩, ⟨3720, "s8", 25⟩, ⟨3780, "s9", 25⟩, ⟨3840, "s10", 25⟩] := rfl
    simp only [qualifiesAt, hdrop]
    rw [windowQualifies, hwin2]
    rfl
  · rw [hwin2]
    decide
  · show ("s6") ∉ burstScan
      (⟨0, "s1", 25⟩ ::
        [⟨60, "s2", 25⟩, ⟨120, "s3", 25⟩, ⟨180, "s4", 25⟩, ⟨240, "s5", 25⟩,
         ⟨3600, "s6", 25⟩, ⟨3660, "s7", 25⟩, ⟨3720, "s8", 25⟩, ⟨3780, "s9", 25⟩,
         ⟨3840, "s10", 25⟩])
    rw [burstScan, if_pos hq0, hwin0]
    decide

/-! ### SimHash index (C7, C8) -/

/-- C7: `SimHashIndex.analyze` never compares or indexes a diff with fewer
than 10 extracted tokens (no duplicate candidates, score `0`, index
unchanged), and always inserts a diff with at least 10 tokens into the
index after its comparison, matched or not. -/
theorem simhash_index_token_gate (hashFn : String → ℕ) (idx : SimHashIndex)
    (sha author diff : String) :
    ((pyTokenize diff).length < 10 →
      idx.find_duplicates hashFn sha author diff = [] ∧
      (idx.analyze hashFn sha author diff).1.score = 0 ∧
      (idx.analyze hashFn sha author diff).2 = idx) ∧
    (10 ≤ (pyTokenize diff).length →
      (idx.analyze hashFn sha author diff).2 =
        { idx with
          index := idx.index ++ [(sha, author, simhash hashFn (pyTokenize diff))] }) := by
  constructor
  · intro h
    have hfd : idx.find_duplicates hashFn sha author diff = [] := by
      unfold SimHashIndex.find_duplicates
      rw [if_pos h]
    have hadd : idx.add hashFn sha author diff = idx := by
      unfold SimHashIndex.add
      rw [if_pos h]
    refine ⟨hfd, ?_, ?_⟩
    · unfold SimHashIndex.analyze
      rw [hfd]
      norm_num
    · unfold SimHashIndex.analyze
      rw [hfd]
      simp [hadd]
  · intro h
    have hadd : idx.add hashFn sha author diff =
        { idx with
          index := idx.index ++ [(sha, author, simhash hashFn (pyTokenize diff))] } := by
      unfold SimHashIndex.add
      rw [if_neg (by omega)]
    unfold SimHashIndex.analyze
    cases hfd : idx.find_duplicates hashFn sha author diff with
    | nil => simpa using hadd
    | cons top rest => simpa using hadd

/-- Witness for `simhash_index_token_gate`: the diff `"x"` has no tokens
(too short), leaves an empty index unchanged; a diff with exactly 10
two-letter tokens is appended to the index. -/
theorem simhash_index_token_gate_witness :
    ((pyTokenize ("x")).length < 10 ∧
      (SimHashIndex.analyze (fun _ => 0) ⟨0.82, []⟩ ("h1") ("A") ("x")).2 =
        ⟨0.82, []⟩) ∧
    (10 ≤ (pyTokenize ("aa bb cc dd ee ff gg hh ii jj")).length ∧
      (SimHashIndex.analyze (fun _ => 0) ⟨0.82, []⟩ ("h2") ("B")
          ("aa bb cc dd ee ff gg hh ii jj")).2 =
        ⟨0.82, [(("h2"), ("B"),
          simhash (fun _ => 0) (pyTokenize ("aa bb cc dd ee ff gg hh ii jj")))]⟩) :=
  ⟨⟨by decide,
    ((simhash_index_token_gate (fun _ => 0) ⟨0.82, []⟩ ("h1") ("A") ("x")).1
      (by decide)).2.2⟩,
   ⟨by decide,
    ((simhash_index_token_gate (fun _ => 0) ⟨0.82, []⟩ ("h2") ("B")
        ("aa bb cc dd ee ff gg hh ii jj")).2 (by decide)).trans (by simp)⟩⟩

/-- C8: feeding the same token list to `_simhash` twice yields identical
fingerprints, hence Hamming distance `0` and similarity exactly `1`. -/
theorem simhash_repeat_identical (hashFn : String → ℕ) (tokens : List String)
    (h : tokens ≠ []) :
    hammingDistance (simhash hashFn tokens) (simhash hashFn tokens) = 0 ∧
      similarity (simhash hashFn tokens) (simhash hashFn tokens) = 1 := by
  have hd : hammingDistance (simhash hashFn tokens) (simhash hashFn tokens) = 0 := by
    unfold hammingDistance
    rw [Nat.xor_self]
    simp [popcount]
  refine ⟨hd, ?_⟩
  unfold similarity
  rw [hd]
  norm_num

/-- Witness for `simhash_repeat_identical` on the token list
`["ab", "cd"]` under the constant hash. -/
theorem simhash_repeat_identical_witness :
    ([("ab"), ("cd")] : List String) ≠ [] ∧
      similarity (simhash (fun _ => 0) [("ab"), ("cd")])
        (simhash (fun _ => 0) [("ab"), ("cd")]) = 1 :=
  ⟨by decide, (simhash_repeat_identical (fun _ => 0) [("ab"), ("cd")] (by decide)).2⟩

/-! ### Score bounds (C9) -/

set_option maxHeartbeats 2000000 in
/-- C9: the structural-regularity analyzer, the SimHash index analyzer and
the author-baseline deviation analyzer all return scores in `[0, 1]`, for
every input. -/
theorem analyzer_scores_in_unit_interval :
    (∀ diff : String,
        0 ≤ (analyze_structural_regularity diff).score ∧
          (analyze_structural_regularity diff).score ≤ 1) ∧
    (∀ (hashFn : String → ℕ) (idx : SimHashIndex) (sha author diff : String),
        0 ≤ (idx.analyze hashFn sha author diff).1.score ∧
          (idx.analyze hashFn sha author diff).1.score ≤ 1) ∧
    (∀ (profiles : String → Option AuthorProfile) (author diff : String),
        0 ≤ (analyze_deviation profiles author diff).score ∧
          (analyze_deviation profiles author diff).score ≤ 1) := by
  refine ⟨fun diff => ?_, fun hashFn idx sha author diff => ?_,
    fun profiles author diff => ?_⟩
  · unfold analyze_structural_regularity
    dsimp only
    split_ifs <;>
      first
        | norm_num
        | exact ⟨le_min (by norm_num) (by norm_num),
            le_trans (min_le_right _ _) (by norm_num)⟩
  · unfold SimHashIndex.analyze
    cases hfd : idx.find_duplicates hashFn sha author diff with
    | nil => norm_num
    | cons top rest =>
        dsimp only
        split_ifs <;>
          first
            | norm_num
            | refine ⟨?_, le_trans (min_le_right _ _) (by norm_num)⟩ <;> positivity
  · unfold analyze_deviation
    cases profiles author with
    | none => norm_num
    | some profile =>
        dsimp only
        split_ifs <;>
          first
            | norm_num
            | refine ⟨?_, le_trans (min_le_right _ _) (by norm_num)⟩ <;> positivity

/-! ### Root commits and empty diffs (C10) -/

/-- C10: a parentless commit yields the empty diff from
`get_commit_diff`, and on the empty diff each analyzer returns score `0`
with its no-signal reason: the structural analyzer reports a too-small
diff, the SimHash analyzer reports no near-duplicates and leaves the
index unchanged, and the baseline engine reports no baseline. -/
theorem root_commit_no_signal (c : GitCommit) (h : c.parents = []) :
    get_commit_diff c = "" ∧
    ((analyze_structural_regularity ("")).score = 0 ∧
      (analyze_structural_regularity ("")).reason =
        "Diff too small for structural analysis") ∧
    (∀ (hashFn : String → ℕ) (idx : SimHashIndex) (sha author : String),
        (idx.analyze hashFn sha author ("")).1.score = 0 ∧
        (idx.analyze hashFn sha author ("")).1.reason =
          "No near-duplicate commits found" ∧
        (idx.analyze hashFn sha author ("")).2 = idx) ∧
    (∀ (profiles : String → Option AuthorProfile) (author : String),
        (analyze_deviation profiles author ("")).score = 0 ∧
        (analyze_deviation profiles author ("")).reason = "No baseline available") := by
  refine ⟨?_, ?_, ?_, ?_⟩
  · unfold get_commit_diff
    rw [if_pos h]
  · unfold analyze_structural_regularity
    dsimp only
    rw [if_pos (by decide : (nonBlankLines ("")).length < 8)]
    exact ⟨by norm_num, rfl⟩
  · intro hashFn idx sha author
    have ht : (pyTokenize ("")).length < 10 := by decide
    have hfd : idx.find_duplicates hashFn sha author ("") = [] := by
      unfold SimHashIndex.find_duplicates
      rw [if_pos ht]
    have hadd : idx.add hashFn sha author ("") = idx := by
      unfold SimHashIndex.add
      rw [if_pos ht]
    refine ⟨?_, ?_, ?_⟩
    · unfold SimHashIndex.analyze
      rw [hfd]
      norm_num
    · unfold SimHashIndex.analyze
      rw [hfd]
    · unfold SimHashIndex.analyze
      rw [hfd]
      simp [hadd]
  · intro profiles author
    unfold analyze_deviation
    cases profiles author with
    | none => exact ⟨by norm_num, rfl⟩
    | some p =>
        dsimp only
        rw [if_pos (by decide : isBlankDiff ("") = true)]
        exact ⟨by norm_num, rfl⟩

/-- Witness for `root_commit_no_signal` at the concrete parentless commit
`⟨[], []⟩`. -/
theorem root_commit_no_signal_witness :
    (⟨[], []⟩ : GitCommit).parents = [] ∧ get_commit_diff ⟨[], []⟩ = "" ∧
      (analyze_deviation (fun _ => none) ("A") ("")).score = 0 :=
  ⟨rfl, (root_commit_no_signal ⟨[], []⟩ rfl).1,
    ((root_commit_no_signal ⟨[], []⟩ rfl).2.2.2 (fun _ => none) ("A")).1⟩

/-! ### Evaluation helpers for the baseline engine (C2, C4) -/

theorem mkEntry_lines (d : String) : (mkEntry d).lines = (nonBlankLines d).length := rfl

theorem mkEntry_comment_ratio (d : String) :
    (mkEntry d).comment_ratio = commentRatio d := rfl

theorem mkEntry_line_length_variance (d : String) :
    (mkEntry d).line_length_variance = lineLengthVariance d := rfl

theorem mkEntry_naming_style (d : String) :
    (mkEntry d).naming_style = detectNamingStyle d := rfl

theorem mkEntry_fn_lengths (d : String) :
    (mkEntry d).fn_lengths = extractFunctionLengths d := rfl

theorem mkProfile_avg_commit_size (l : List DiffEntry) :
    (mkProfile l).avg_commit_size =
      meanQ ((l.take (max 1 (l.length / 2))).map (fun e => (e.lines : ℚ))) := rfl

theorem mkProfile_commit_size_stdev (l : List DiffEntry) :
    (mkProfile l).commit_size_stdev =
      stdevR ((l.take (max 1 (l.length / 2))).map (fun e => (e.lines : ℚ))) := rfl

theorem mkProfile_avg_comment_ratio (l : List DiffEntry) :
    (mkProfile l).avg_comment_ratio =
      meanQ ((l.take (max 1 (l.length / 2))).map (·.comment_ratio)) := rfl

theorem mkProfile_avg_line_variance (l : List DiffEntry) :
    (mkProfile l).avg_line_variance =
      meanR ((l.take (max 1 (l.length / 2))).map (·.line_length_variance)) := rfl

theorem mkProfile_avg_fn_length (l : List DiffEntry) :
    (mkProfile l).avg_fn_length =
      meanQ (((l.take (max 1 (l.length / 2))).foldl
        (fun acc e => acc ++ e.fn_lengths) ([] : List ℕ)).map (fun n => (n : ℚ))) := rfl

theorem mkProfile_dominant_naming (l : List DiffEntry) :
    (mkProfile l).dominant_naming =
      dominantNaming ((l.take (max 1 (l.length / 2))).map (·.naming_style)) := rfl

theorem mkProfile_total (l : List DiffEntry) :
    (mkProfile l).total_baseline_commits = (l.take (max 1 (l.length / 2))).length := rfl

theorem meanQ_replicate (n : ℕ) (q : ℚ) (hn : n ≠ 0) :
    meanQ (List.replicate n q) = q := by
  unfold meanQ
  rw [if_neg (by simp [hn])]
  rw [List.sum_replicate, List.length_replicate, nsmul_eq_mul]
  field_simp

theorem svarQ_replicate (n : ℕ) (q : ℚ) : svarQ (List.replicate n q) = 0 := by
  unfold svarQ
  split_ifs with h
  · rfl
  · have hn : n ≠ 0 := by
      simp only [List.length_replicate] at h
      omega
    rw [meanQ_replicate n q hn]
    simp [List.map_replicate, List.sum_replicate]

theorem stdevR_replicate (n : ℕ) (q : ℚ) : stdevR (List.replicate n q) = 0 := by
  unfold stdevR
  rw [svarQ_replicate]
  simp

theorem detectNaming_of_no_identifiers (d : String) (h : namingIdentifiers d = []) :
    detectNamingStyle d = "mixed" := by
  unfold detectNamingStyle
  rw [h]
  norm_num

theorem meanR_replicate_zero (n : ℕ) : meanR (List.replicate n (0 : ℝ)) = 0 := by
  unfold meanR
  split_ifs with h
  · rfl
  · rw [List.sum_replicate]
    simp

/-- The source's `commentRatio` of a concrete comment-free diff, given the decidable
count and length of its stripped lines. -/
theorem commentRatio_eq_zero_of_counts (d : String)
    (hne : ((splitLines d).filter isNonBlank).map (fun l => pyStrip l.data) ≠ [])
    (hc : (((splitLines d).filter isNonBlank).map
      (fun l => pyStrip l.data)).countP startsWithCommentMark = 0) :
    commentRatio d = 0 := by
  unfold commentRatio
  rw [if_neg hne, hc]
  norm_num

/-- The source's `lineLengthVariance` of a diff whose non-blank lines are `n` copies of
the same line. -/
theorem lineLengthVariance_of_replicate (d : String) (n : ℕ) (line : String)
    (hne : nonBlankLines d ≠ [])
    (hrep : nonBlankLines d = List.replicate n line) :
    lineLengthVariance d = 0 := by
  unfold lineLengthVariance
  rw [if_neg hne]
  unfold lineLengths
  rw [hrep, List.map_replicate]
  exact stdevR_replicate n _

theorem foldl_fn_lengths_of_empty (l : List DiffEntry)
    (h : ∀ e ∈ l, e.fn_lengths = []) (acc : List ℕ) :
    l.foldl (fun acc e => acc ++ e.fn_lengths) acc = acc := by
  induction l generalizing acc with
  | nil => rfl
  | cons e rest ih =>
      have he : e.fn_lengths = [] := h e (List.mem_cons_self e rest)
      simp only [List.foldl_cons, he, List.append_nil]
      exact ih (fun x hx => h x (List.mem_cons_of_mem e hx)) acc

/-! ### Author-baseline deviation (C2) -/

/-- C2 counterexample: an author whose baseline consists of 10 identical
3-line commits (so 5 baseline commits, average size 3, but size standard
deviation 0) submits a new 30-line commit — 10× the baseline average —
and `analyze_deviation` returns `0`, not `≥ 0.4`: the commit-size branch
is guarded by `baseline_stdev > 0` and is skipped entirely. -/
theorem baseline_identical_cex :
    identProfile.avg_commit_size = 3 ∧
    identProfile.total_baseline_commits = 5 ∧
    (nonBlankLines (repLines 30)).length = 30 ∧
    (analyze_deviation (fun _ => some identProfile) ("A") (repLines 30)).score = 0 := by
  have hbase : ((List.replicate 10 (repLines 3)).map mkEntry).take
      (max 1 (((List.replicate 10 (repLines 3)).map mkEntry).length / 2)) =
      List.replicate 5 (mkEntry (repLines 3)) := rfl
  have hnb3len : (nonBlankLines (repLines 3)).length = 3 := by decide
  have havg : identProfile.avg_commit_size = 3 := by
    unfold identProfile
    rw [mkProfile_avg_commit_size, hbase, List.map_replicate, mkEntry_lines, hnb3len,
      meanQ_replicate 5 _ (by norm_num)]
    norm_num
  have hstd : identProfile.commit_size_stdev = 0 := by
    unfold identProfile
    rw [mkProfile_commit_size_stdev, hbase, List.map_replicate]
    exact stdevR_replicate 5 _
  have hcrp : identProfile.avg_comment_ratio = 0 := by
    have hcr3 : commentRatio (repLines 3) = 0 :=
      commentRatio_eq_zero_of_counts _ (by decide) (by decide)
    unfold identProfile
    rw [mkProfile_avg_comment_ratio, hbase, List.map_replicate, mkEntry_comment_ratio,
      hcr3, meanQ_replicate 5 _ (by norm_num)]
  have hvarp : identProfile.avg_line_variance = 0 := by
    have hlv3 : lineLengthVariance (repLines 3) = 0 :=
      lineLengthVariance_of_replicate _ 3 ("aa") (by decide) (by decide)
    unfold identProfile
    rw [mkProfile_avg_line_variance, hbase, List.map_replicate,
      mkEntry_line_length_variance, hlv3]
    exact meanR_replicate_zero 5
  have hfnp : identProfile.avg_fn_length = 0 := by
    unfold identProfile
    rw [mkProfile_avg_fn_length, hbase,
      foldl_fn_lengths_of_empty _ (fun e he => by
        rw [List.eq_of_mem_replicate he, mkEntry_fn_lengths]
        decide)]
    norm_num [meanQ]
  have hdomp : identProfile.dominant_naming = "mixed" := by
    have hns3 : (mkEntry (repLines 3)).naming_style = "mixed" := by
      rw [mkEntry_naming_style]
      exact detectNaming_of_no_identifiers _ (by decide)
    unfold identProfile
    rw [mkProfile_dominant_naming, hbase, List.map_replicate, hns3]
    decide
  have htotp : identProfile.total_baseline_commits = 5 := by
    unfold identProfile
    rw [mkProfile_total, hbase]
    rfl
  have hnb30 : (nonBlankLines (repLines 30)).length = 30 := by decide
  have hcr30 : commentRatio (repLines 30) = 0 :=
    commentRatio_eq_zero_of_counts _ (by decide) (by decide)
  have hlv30 : lineLengthVariance (repLines 30) = 0 :=
    lineLengthVariance_of_replicate _ 30 ("aa") (by decide) (by decide)
  have hns30 : detectNamingStyle (repLines 30) = "mixed" :=
    detectNaming_of_no_identifiers _ (by decide)
  have hfl30 : extractFunctionLengths (repLines 30) = [] := by decide
  refine ⟨havg, htotp, hnb30, ?_⟩
  unfold analyze_deviation
  dsimp only
  rw [if_neg (by decide : ¬ isBlankDiff (repLines 30) = true)]
  rw [htotp, if_neg (by norm_num : ¬ (5 : ℕ) < 5)]
  dsimp only
  simp only [havg, hstd, hcrp, hvarp, hfnp, hdomp, hcr30, hlv30, hns30, hfl30, hnb30]
  norm_num [min_def]

/-- C2 amended: the commit-size outlier bonus fires only when the
baseline size mean AND standard deviation are positive (an all-identical
baseline has deviation 0 and the branch is skipped): for any profile with
at least 5 baseline commits, positive mean size and positive size
deviation, a non-blank commit whose size z-score
`|size − mean| / (stdev + 1)` exceeds 2 receives a deviation score of at
least `0.4`. -/
theorem baseline_size_outlier (profiles : String → Option AuthorProfile)
    (author diff : String) (p : AuthorProfile)
    (hp : profiles author = some p)
    (hblank : isBlankDiff diff = false)
    (htot : ¬ p.total_baseline_commits < 5)
    (hmean : 0 < p.avg_commit_size)
    (hstd : (0 : ℝ) < p.commit_size_stdev)
    (hz : (2 : ℝ) < |((nonBlankLines diff).length : ℝ) - (p.avg_commit_size : ℝ)| /
        (p.commit_size_stdev + 1)) :
    0.4 ≤ (analyze_deviation profiles author diff).score := by
  unfold analyze_deviation
  rw [hp]
  dsimp only
  rw [if_neg (by simp [hblank]), if_neg htot]
  dsimp only
  rw [if_pos (⟨hmean, hstd⟩ : p.avg_commit_size > 0 ∧ (0 : ℝ) < p.commit_size_stdev)]
  rw [show (2.0 : ℝ) = 2 from by norm_num]
  rw [if_pos hz]
  refine le_min ?_ (by norm_num)
  split_ifs <;> norm_num

set_option maxRecDepth 8000 in
/-- Witness for `baseline_size_outlier`: a baseline of sizes
`[1, 1, 5, 9, 9]` (mean 5, stdev 4) and a 100-line commit
(z = 95/5 = 19 > 2). -/
theorem baseline_size_outlier_witness :
    0.4 ≤ (analyze_deviation (fun _ => some variedProfile) ("A") (repLines 100)).score := by
  have hbase : (([repLines 1, repLines 1, repLines 5, repLines 9, repLines 9,
      repLines 1, repLines 1, repLines 1, repLines 1, repLines 1]).map mkEntry).take
      (max 1 ((([repLines 1, repLines 1, repLines 5, repLines 9, repLines 9,
        repLines 1, repLines 1, repLines 1, repLines 1, repLines 1]).map mkEntry).length / 2)) =
      [mkEntry (repLines 1), mkEntry (repLines 1), mkEntry (repLines 5),
       mkEntry (repLines 9), mkEntry (repLines 9)] := rfl
  have hsizes : ([mkEntry (repLines 1), mkEntry (repLines 1), mkEntry (repLines 5),
      mkEntry (repLines 9), mkEntry (repLines 9)]).map (fun e => (e.lines : ℚ)) =
      [(1 : ℚ), 1, 5, 9, 9] := by
    norm_num [mkEntry_lines,
      show (nonBlankLines (repLines 1)).length = 1 from by decide,
      show (nonBlankLines (repLines 5)).length = 5 from by decide,
      show (nonBlankLines (repLines 9)).length = 9 from by decide]
  have hm5 : meanQ [(1 : ℚ), 1, 5, 9, 9] = 5 := by
    unfold meanQ
    rw [if_neg (by simp)]
    norm_num
  have havgV : variedProfile.avg_commit_size = 5 := by
    unfold variedProfile
    rw [mkProfile_avg_commit_size, hbase, hsizes, hm5]
  have hstdV : variedProfile.commit_size_stdev = 4 := by
    unfold variedProfile
    rw [mkProfile_commit_size_stdev, hbase, hsizes]
    unfold stdevR
    rw [show svarQ [(1 : ℚ), 1, 5, 9, 9] = 16 from by
      unfold svarQ
      rw [if_neg (by norm_num)]
      rw [hm5]
      norm_num]
    rw [show ((16 : ℚ) : ℝ) = (4 : ℝ) ^ 2 from by norm_num]
    exact Real.sqrt_sq (by norm_num)
  have htotV : variedProfile.total_baseline_commits = 5 := by
    unfold variedProfile
    rw [mkProfile_total, hbase]
    rfl
  exact baseline_size_outlier _ ("A") (repLines 100) variedProfile rfl (by decide)
    (by rw [htotV]; norm_num) (by rw [havgV]; norm_num) (by rw [hstdV]; norm_num)
    (by rw [hstdV, havgV, show (nonBlankLines (repLines 100)).length = 100 from by decide]
        push_cast
        rw [show |(100 : ℝ) - 5| = 95 from by rw [abs_of_nonneg] <;> norm_num]
        norm_num)

/-! ### Baseline leakage (C4) -/

/-- The source's `detectNamingStyle` is `"mixed"` when no identifier is snake- or
camel-styled. -/
theorem detectNaming_mixed_of_counts (d : String)
    (hs : (namingIdentifiers d).countP (fun i => i.contains '_' && pyIsLower i) = 0)
    (hc : (namingIdentifiers d).countP hasCamelPair = 0) :
    detectNamingStyle d = "mixed" := by
  unfold detectNamingStyle
  dsimp only
  rw [hs, hc]
  norm_num

set_option maxRecDepth 8000 in
/-- C4 counterexample: in `repoC4` the whole 10-commit author history lies
inside the scan window (`count = 10`), so the oldest five commits are both
baseline sources and scored commits.  Commit `c5` is a baseline source,
is scanned, and receives the nonzero deviation score `0.25` (its comment
ratio `1` deviates from the baseline average `1/5` — an average that
includes the data of `c5` itself), refuting "no commit with nonzero score
contributes its own data to the baseline it is scored against". -/
theorem baseline_leak_cex :
    (⟨"c5", "A", 5, dNoteC4⟩ : MCommit) ∈ scannedCommits repoC4 10 ∧
    (⟨"c5", "A", 5, dNoteC4⟩ : MCommit) ∈
      baselineSrcCommits (historyCommits repoC4 10) ("A") ∧
    (analyze_deviation (profileOf (historyCommits repoC4 10)) ("A") dNoteC4).score
      = 0.25 := by
  have hh : historyCommits repoC4 10 = repoC4 := rfl
  have hAD : authorDiffs repoC4 ("A") =
      [dPlainC4, dPlainC4, dPlainC4, dPlainC4, dNoteC4,
       dTailC4, dTailC4, dTailC4, dTailC4, dTailC4] := by decide
  have hprof : profileOf repoC4 ("A") =
      some (mkProfile (([dPlainC4, dPlainC4, dPlainC4, dPlainC4, dNoteC4,
        dTailC4, dTailC4, dTailC4, dTailC4, dTailC4]).map mkEntry)) := by
    unfold profileOf
    rw [if_neg (by decide), hAD]
  have hbase4 : (([dPlainC4, dPlainC4, dPlainC4, dPlainC4, dNoteC4,
      dTailC4, dTailC4, dTailC4, dTailC4, dTailC4]).map mkEntry).take
      (max 1 ((([dPlainC4, dPlainC4, dPlainC4, dPlainC4, dNoteC4,
        dTailC4, dTailC4, dTailC4, dTailC4, dTailC4]).map mkEntry).length / 2)) =
      [mkEntry dPlainC4, mkEntry dPlainC4, mkEntry dPlainC4, mkEntry dPlainC4,
       mkEntry dNoteC4] := rfl
  have hcrPlain : commentRatio dPlainC4 = 0 :=
    commentRatio_eq_zero_of_counts _ (by decide) (by decide)
  have hcrNote : commentRatio dNoteC4 = 1 := by
    unfold commentRatio
    rw [if_neg (by decide)]
    rw [show ((((splitLines dNoteC4).filter isNonBlank).map
        (fun l => pyStrip l.data))).countP startsWithCommentMark = 16 from by decide]
    rw [show ((((splitLines dNoteC4).filter isNonBlank).map
        (fun l => pyStrip l.data))).length = 16 from by decide]
    norm_num
  have hlvPlain : lineLengthVariance dPlainC4 = 0 :=
    lineLengthVariance_of_replicate _ 16 ("aaaa") (by decide) (by decide)
  have hlvNote : lineLengthVariance dNoteC4 = 0 :=
    lineLengthVariance_of_replicate _ 16 ("# aa") (by decide) (by decide)
  have hnsPlain : detectNamingStyle dPlainC4 = "mixed" :=
    detectNaming_mixed_of_counts _ (by decide) (by decide)
  have hnsNote : detectNamingStyle dNoteC4 = "mixed" :=
    detectNaming_of_no_identifiers _ (by decide)
  have havg4 : (mkProfile (([dPlainC4, dPlainC4, dPlainC4, dPlainC4, dNoteC4,
      dTailC4, dTailC4, dTailC4, dTailC4, dTailC4]).map mkEntry)).avg_commit_size
      = 16 := by
    rw [mkProfile_avg_commit_size, hbase4]
    rw [show ([mkEntry dPlainC4, mkEntry dPlainC4, mkEntry dPlainC4, mkEntry dPlainC4,
        mkEntry dNoteC4]).map (fun e => (e.lines : ℚ)) =
      List.replicate 5 ((16 : ℕ) : ℚ) from by
        norm_num [mkEntry_lines, List.replicate,
          show (nonBlankLines dPlainC4).length = 16 from by decide,
          show (nonBlankLines dNoteC4).length = 16 from by decide]]
    rw [meanQ_replicate 5 _ (by norm_num)]
    norm_num
  have hstd4 : (mkProfile (([dPlainC4, dPlainC4, dPlainC4, dPlainC4, dNoteC4,
      dTailC4, dTailC4, dTailC4, dTailC4, dTailC4]).map mkEntry)).commit_size_stdev
      = 0 := by
    rw [mkProfile_commit_size_stdev, hbase4]
    rw [show ([mkEntry dPlainC4, mkEntry dPlainC4, mkEntry dPlainC4, mkEntry dPlainC4,
        mkEntry dNoteC4]).map (fun e => (e.lines : ℚ)) =
      List.replicate 5 ((16 : ℕ) : ℚ) from by
        norm_num [mkEntry_lines, List.replicate,
          show (nonBlankLines dPlainC4).length = 16 from by decide,
          show (nonBlankLines dNoteC4).length = 16 from by decide]]
    exact stdevR_replicate 5 _
  have hcr4 : (mkProfile (([dPlainC4, dPlainC4, dPlainC4, dPlainC4, dNoteC4,
      dTailC4, dTailC4, dTailC4, dTailC4, dTailC4]).map mkEntry)).avg_comment_ratio
      = 1/5 := by
    rw [mkProfile_avg_comment_ratio, hbase4]
    rw [show ([mkEntry dPlainC4, mkEntry dPlainC4, mkEntry dPlainC4, mkEntry dPlainC4,
        mkEntry dNoteC4]).map (·.comment_ratio) = [(0 : ℚ), 0, 0, 0, 1] from by
        simp [mkEntry_comment_ratio, hcrPlain, hcrNote]]
    unfold meanQ
    rw [if_neg (by simp)]
    norm_num
  have hvar4 : (mkProfile (([dPlainC4, dPlainC4, dPlainC4, dPlainC4, dNoteC4,
      dTailC4, dTailC4, dTailC4, dTailC4, dTailC4]).map mkEntry)).avg_line_variance
      = 0 := by
    rw [mkProfile_avg_line_variance, hbase4]
    rw [show ([mkEntry dPlainC4, mkEntry dPlainC4, mkEntry dPlainC4, mkEntry dPlainC4,
        mkEntry dNoteC4]).map (·.line_length_variance) =
        List.replicate 5 (0 : ℝ) from by
        simp [mkEntry_line_length_variance, hlvPlain, hlvNote, List.replicate]]
    exact meanR_replicate_zero 5
  have hfn4 : (mkProfile (([dPlainC4, dPlainC4, dPlainC4, dPlainC4, dNoteC4,
      dTailC4, dTailC4, dTailC4, dTailC4, dTailC4]).map mkEntry)).avg_fn_length
      = 0 := by
    rw [mkProfile_avg_fn_length, hbase4]
    rw [foldl_fn_lengths_of_empty _ (fun e he => by
      fin_cases he <;> (rw [mkEntry_fn_lengths]; decide))]
    norm_num [meanQ]
  have hdom4 : (mkProfile (([dPlainC4, dPlainC4, dPlainC4, dPlainC4, dNoteC4,
      dTailC4, dTailC4, dTailC4, dTailC4, dTailC4]).map mkEntry)).dominant_naming
      = "mixed" := by
    rw [mkProfile_dominant_naming, hbase4]
    rw [show ([mkEntry dPlainC4, mkEntry dPlainC4, mkEntry dPlainC4, mkEntry dPlainC4,
        mkEntry dNoteC4]).map (·.naming_style) =
        ["mixed", "mixed", "mixed", "mixed", "mixed"] from by
        simp [mkEntry_naming_style, hnsPlain, hnsNote]]
    decide
  have htot4 : (mkProfile (([dPlainC4, dPlainC4, dPlainC4, dPlainC4, dNoteC4,
      dTailC4, dTailC4, dTailC4, dTailC4, dTailC4]).map mkEntry)).total_baseline_commits
      = 5 := by
    rw [mkProfile_total, hbase4]
    rfl
  refine ⟨by decide, by rw [hh]; decide, ?_⟩
  rw [hh]
  unfold analyze_deviation
  rw [hprof]
  dsimp only
  rw [if_neg (by decide : ¬ isBlankDiff dNoteC4 = true)]
  rw [htot4, if_neg (by norm_num : ¬ (5 : ℕ) < 5)]
  dsimp only
  simp only [havg4, hstd4, hcr4, hvar4, hfn4, hdom4, hcrNote, hlvNote, hnsNote,
    show extractFunctionLengths dNoteC4 = [] from by decide,
    show (nonBlankLines dNoteC4).length = 16 from by decide]
  norm_num [min_def]

/-- C4 amended: the baseline half is exactly the oldest
`max 1 (n / 2)` of the author's sampled non-blank history, so any
evaluated commit OUTSIDE that oldest half (in particular every commit in
the newest half of the author's sampled history) never contributes its
own data to the baseline it is scored against.  (The counterexample shows
the guarantee fails for scanned commits inside the oldest half, which can
be scored — with nonzero scores — against baselines containing
themselves.) -/
theorem baseline_no_leak_newest_half (cs : List MCommit) (a : String) (c : MCommit)
    (hnd : (cs.reverse.filter fun k => k.author = a && !isBlankDiff k.diff).Nodup)
    (hc : c ∈ (cs.reverse.filter fun k => k.author = a && !isBlankDiff k.diff).drop
        (max 1 ((cs.reverse.filter fun k => k.author = a && !isBlankDiff k.diff).length / 2))) :
    c ∉ baselineSrcCommits cs a := by
  unfold baselineSrcCommits
  intro hmem
  exact List.disjoint_take_drop hnd le_rfl hmem hc

set_option maxRecDepth 8000 in
/-- Witness for `baseline_no_leak_newest_half`: commit `c6` of `repoC4`
lies in the newest half of the author's history and is not among the
baseline sources. -/
theorem baseline_no_leak_newest_half_witness :
    (⟨"c6", "A", 6, dTailC4⟩ : MCommit) ∉ baselineSrcCommits repoC4 ("A") :=
  baseline_no_leak_newest_half repoC4 ("A") _ (by decide) (by decide)

end Sniff
